import Mathlib

/-!
Verification development for the web_scales_api repository.

The repository's catalog payloads are Python dicts/lists parsed from JSON, so
we first shallowly embed the Python values and the dict operations the
services use.  Services that perform I/O (the device client, JSON codecs,
date formatting) receive their effectful collaborators as explicit function
arguments; a call that raises in Python is a `.error` value here.
-/

namespace WebScales

/-- Embedding of the Python/JSON values flowing through the services:
`None`, booleans, integers, strings, lists and (string-keyed) dicts. -/
inductive PyVal where
  | pyNone
  | pyBool (b : Bool)
  | pyInt (n : Int)
  | pyStr (s : String)
  | pyList (xs : List PyVal)
  | pyDict (kvs : List (String × PyVal))

/-- A Python dict with string keys, as an association list (first key wins,
mirroring dict key uniqueness: all operations read/write the first match). -/
abbrev PyDict := List (String × PyVal)

/-- Exceptions relevant to the services: `scales.exceptions.DeviceError`
versus every other Python exception. -/
inductive PyErr where
  | deviceError (msg : String)
  | otherError (msg : String)

/-- Lookup of `d[k]` / `d.get(k)` on a dict: first matching key. -/
def dictLookup : PyDict → String → Option PyVal
  | [], _ => none
  | (k, v) :: rest, key => if k = key then some v else dictLookup rest key

/-- `d.get(key, dflt)`. -/
def dictGetD (d : PyDict) (key : String) (dflt : PyVal) : PyVal :=
  (dictLookup d key).getD dflt

/-- Assignment `d[key] = val`: replaces the first matching binding in place,
appends when the key is absent. -/
def dictSet : PyDict → String → PyVal → PyDict
  | [], key, val => [(key, val)]
  | (k, v) :: rest, key, val =>
    if k = key then (k, val) :: rest else (k, v) :: dictSet rest key val

/-- Python truthiness (`bool(v)`) restricted to the embedded values. -/
def pyFalsy : PyVal → Bool
  | .pyNone => true
  | .pyBool b => !b
  | .pyInt n => n == 0
  | .pyStr s => s.isEmpty
  | .pyList xs => xs.isEmpty
  | .pyDict kvs => kvs.isEmpty

/-- Python `a or b`. -/
def pyOr (a b : PyVal) : PyVal :=
  if pyFalsy a then b else a

/-- Python `int(v)`: `none` models the `TypeError`/`ValueError` raised when
the value is `None`, a non-numeric string, a list or a dict. -/
def pyToInt : PyVal → Option Int
  | .pyInt n => some n
  | .pyBool b => some (if b then 1 else 0)
  | .pyStr s => s.toInt?
  | _ => none

mutual

/-- Python `repr(v)` over the embedded values (strings are quoted). -/
def pyReprOf : PyVal → String
  | .pyNone => "None"
  | .pyBool true => "True"
  | .pyBool false => "False"
  | .pyInt n => toString n
  | .pyStr s => "\x27" ++ s ++ "\x27"
  | .pyList xs => "[" ++ pyReprList xs ++ "]"
  | .pyDict kvs => "\x7b" ++ pyReprDict kvs ++ "\x7d"

/-- Comma-separated reprs of a list's elements. -/
def pyReprList : List PyVal → String
  | [] => ""
  | [x] => pyReprOf x
  | x :: y :: xs => pyReprOf x ++ ", " ++ pyReprList (y :: xs)

/-- Comma-separated `'key': repr(value)` renderings of a dict's entries. -/
def pyReprDict : List (String × PyVal) → String
  | [] => ""
  | [(k, v)] => "\x27" ++ k ++ "\x27: " ++ pyReprOf v
  | (k, v) :: y :: xs => "\x27" ++ k ++ "\x27: " ++ pyReprOf v ++ ", " ++ pyReprDict (y :: xs)

end

/-- Python `str(v)`: identity on strings, `repr` otherwise. -/
def pyStrOf : PyVal → String
  | .pyStr s => s
  | v => pyReprOf v

/-- Truthiness of an optional DB text column (`not device.products_cache_json`):
`NULL` and the empty string are falsy. -/
def optStrFalsy : Option String → Bool
  | none => true
  | some s => s.isEmpty

theorem dictLookup_dictSet (d : PyDict) (k : String) (v : PyVal) :
    dictLookup (dictSet d k v) k = some v := by
  induction d with
  | nil => simp [dictSet, dictLookup]
  | cons hd tl ih =>
    obtain ⟨k', v'⟩ := hd
    by_cases h : k' = k
    · simp [dictSet, dictLookup, h]
    · simp [dictSet, dictLookup, h, ih]

theorem dictLookup_dictSet_ne (d : PyDict) (k k' : String) (v : PyVal)
    (h : k' ≠ k) : dictLookup (dictSet d k v) k' = dictLookup d k' := by
  induction d with
  | nil => simp [dictSet, dictLookup, Ne.symm h]
  | cons hd tl ih =>
    obtain ⟨k₀, v₀⟩ := hd
    by_cases h₀ : k₀ = k
    · subst h₀
      simp [dictSet, dictLookup, Ne.symm h]
    · simp [dictSet, dictLookup, h₀, ih]

/-! ## Data model (`app/models.py`, restricted to the fields the services read) -/

/-- `Device` row: only the fields touched by the synchronization services
(`products_cache_json`, `cached_dirty`) plus the id. -/
structure Device where
  id : Nat
  products_cache_json : Option String
  cached_dirty : Bool
  deriving Repr, DecidableEq

/-- `AutoUpdateSchedule` row. -/
structure AutoUpdateSchedule where
  device_id : Nat
  enabled : Bool
  interval_minutes : Nat
  last_run_utc : Option String
  last_status : Option String
  last_error : Option String
  deriving Repr, DecidableEq

/-! ## `app/services/scales_service.py`: validation -/

/-- Inner loop of `validate_plu_uniqueness`: walks the items, skipping
non-dicts and dicts without a `pluNumber` key, collecting `str(pluNumber)`
into `seen` and raising `DeviceError` on the first repeat. -/
def pluScan : List PyVal → List String → Except PyErr Unit
  | [], _ => .ok ()
  | p :: rest, seen =>
    match p with
    | .pyDict kvs =>
      match dictLookup kvs "pluNumber" with
      | none => pluScan rest seen
      | some v =>
        let key := pyStrOf v
        if seen.contains key then
          .error (.deviceError
            ("Нарушение уникальности pluNumber в рамках устройства: pluNumber=" ++ key))
        else pluScan rest (key :: seen)
    | _ => pluScan rest seen

/-- `validate_plu_uniqueness(products)`.  A non-dict argument models the
`AttributeError` Python would raise on `products.get`; a non-list
`products` field is the explicit format `DeviceError` of the source. -/
def validate_plu_uniqueness : PyVal → Except PyErr Unit
  | .pyDict pd =>
    match dictGetD pd "products" (.pyList []) with
    | .pyList items => pluScan items []
    | _ => .error (.deviceError "Некорректный формат: поле products должно быть массивом.")
  | _ => .error (.otherError "AttributeError")

/-! ## `app/services/products_cache_service.py` -/

/-- `load_cached_products(device)`: an absent or empty cache column yields
the explicit empty catalog, otherwise the cached string is JSON-decoded
(`jsonLoads` stands for `json.loads`; its errors propagate). -/
def load_cached_products (jsonLoads : String → Except PyErr PyVal)
    (device : Device) : Except PyErr PyVal :=
  if optStrFalsy device.products_cache_json then
    .ok (.pyDict [("products", .pyList [])])
  else
    match device.products_cache_json with
    | some s => jsonLoads s
    | none => .ok (.pyDict [("products", .pyList [])])

/-- `save_cached_products(db, device, products, dirty=...)`: serializes the
payload into the cache column and sets the dirty flag (committed at once in
this sequential model; `jsonDumps` stands for `json.dumps`). -/
def save_cached_products (jsonDumps : PyVal → String) (device : Device)
    (products : PyVal) (dirty : Bool) : Device :=
  { device with products_cache_json := some (jsonDumps products), cached_dirty := dirty }

/-! ## `app/services/scales_service.py`: fetch and push -/

/-- `fetch_products_and_cache(db, device)`.  `fetchResult` is the outcome of
`scales.get_products_json()`; on success the payload is validated and then
cached not-dirty.  Returns the (possibly updated) device row and the result. -/
def fetch_products_and_cache (jsonDumps : PyVal → String)
    (fetchResult : Except PyErr PyVal) (device : Device) :
    Device × Except PyErr PyVal :=
  match fetchResult with
  | .error e => (device, .error e)
  | .ok products =>
    match validate_plu_uniqueness products with
    | .error e => (device, .error e)
    | .ok () => (save_cached_products jsonDumps device products false, .ok products)

/-- The `DeviceError` message raised by `diagnose_broken_product` once an
item fails alone (`index`, `pluNumber` and `name` interpolated as Python
f-string fields, i.e. via `str`). -/
def brokenMsg (idx : Nat) (kvs : PyDict) : String :=
  "Найден проблемный товар: index=" ++ toString idx ++
    ", pluNumber=" ++ pyStrOf (dictGetD kvs "pluNumber" .pyNone) ++
    ", name=" ++ pyStrOf (dictGetD kvs "name" .pyNone)

/-- The single-item payload `diagnose_broken_product` uploads: a deep copy
of the template (full payload with `products` emptied) whose `products`
field holds exactly one item. -/
def singlePayload (template : PyDict) (item : PyVal) : PyVal :=
  .pyDict (dictSet template "products" (.pyList [item]))

/-- Loop of `diagnose_broken_product` (`enumerate(items, start=1)`): each
item is uploaded alone through a fresh client; the first failure raises a
`DeviceError` carrying the item's identity.  Returns the upload attempts
made, in order, together with the outcome.  A non-dict item models the
`AttributeError` of `item.get` (raised before any attempt for that item). -/
def diagnoseGo (send : PyVal → Except PyErr Unit) (template : PyDict) :
    List PyVal → Nat → List PyVal × Except PyErr Unit
  | [], _ => ([], .ok ())
  | item :: rest, idx =>
    match item with
    | .pyDict kvs =>
      let single := singlePayload template item
      match send single with
      | .ok () =>
        let (tr, res) := diagnoseGo send template rest (idx + 1)
        (single :: tr, res)
      | .error _ => ([single], .error (.deviceError (brokenMsg idx kvs)))
    | _ => ([], .error (.otherError "AttributeError"))

/-- `diagnose_broken_product(device, products_payload)`: per-item diagnostic
upload, preserving the payload structure (only `products` varies). -/
def diagnose_broken_product (send : PyVal → Except PyErr Unit)
    (payload : PyVal) : List PyVal × Except PyErr Unit :=
  match payload with
  | .pyDict pd =>
    match dictGetD pd "products" (.pyList []) with
    | .pyList items => diagnoseGo send (dictSet pd "products" (.pyList [])) items 1
    | _ => ([], .error (.deviceError "Некорректный формат: поле products должно быть массивом."))
  | _ => ([], .error (.otherError "AttributeError"))

/-- `push_cache_to_scales(db, device)`.  `send` is
`scales.send_json_products` (a fresh client per call in the source).  The
middle component lists every payload handed to `send`, in order.  Only a
fully successful bulk upload clears `cached_dirty`; in fix mode a bulk
`DeviceError` triggers `diagnose_broken_product` and then re-raises
(unless the diagnostic raises first). -/
def push_cache_to_scales (jsonLoads : String → Except PyErr PyVal)
    (send : PyVal → Except PyErr Unit) (products_fix_mode : Bool)
    (device : Device) : Device × List PyVal × Except PyErr Unit :=
  if optStrFalsy device.products_cache_json then
    (device, [], .error (.deviceError
      "Нет кэша товаров для загрузки. Сначала выполните выгрузку товаров с весов."))
  else
    match load_cached_products jsonLoads device with
    | .error e => (device, [], .error e)
    | .ok products =>
      match validate_plu_uniqueness products with
      | .error e => (device, [], .error e)
      | .ok () =>
        match send products with
        | .ok () => ({ device with cached_dirty := false }, [products], .ok ())
        | .error (.deviceError m) =>
          if products_fix_mode then
            match diagnose_broken_product send products with
            | (tr, .error e) => (device, products :: tr, .error e)
            | (tr, .ok ()) => (device, products :: tr, .error (.deviceError m))
          else (device, [products], .error (.deviceError m))
        | .error (.otherError m) => (device, [products], .error (.otherError m))

/-! ## `app/services/auto_update_service.py` -/

/-- `int(p.get("shelfLifeInDays", 0) or 0)` for a catalog item; `none`
models the `TypeError`/`ValueError` of `int` on an unconvertible value. -/
def shelfOf : PyVal → Option Int
  | .pyDict kvs => pyToInt (pyOr (dictGetD kvs "shelfLifeInDays" (.pyInt 0)) (.pyInt 0))
  | _ => none

/-- Per-item body of `update_dates_only`: non-dict items are skipped, dict
items get `manufactureDate = today` and `sellByDate = today + shelf days`,
both rendered through `strftime date "%d-%m-%y"` (dates as day numbers). -/
def updItem (strftime : Int → String → String) (today : Int) :
    PyVal → Except PyErr PyVal
  | .pyDict kvs =>
    match shelfOf (.pyDict kvs) with
    | none => .error (.otherError "ValueError")
    | some shelf =>
      .ok (.pyDict (dictSet
        (dictSet kvs "manufactureDate" (.pyStr (strftime today "%d-%m-%y")))
        "sellByDate" (.pyStr (strftime (today + shelf) "%d-%m-%y"))))
  | item => .ok item

/-- Total variant of `updItem` (identity where `updItem` raises), used to
express the transformed item list. -/
def updItemOk (strftime : Int → String → String) (today : Int) (item : PyVal) : PyVal :=
  match updItem strftime today item with
  | .ok v => v
  | .error _ => item

/-- The `for p in items` loop of `update_dates_only`: items transformed in
order, aborting at the first failing `int()` conversion. -/
def updItems (strftime : Int → String → String) (today : Int) :
    List PyVal → Except PyErr (List PyVal)
  | [] => .ok []
  | item :: rest =>
    match updItem strftime today item with
    | .error e => .error e
    | .ok v =>
      match updItems strftime today rest with
      | .error e => .error e
      | .ok vs => .ok (v :: vs)

/-- `update_dates_only(products)`.  In the source the item dicts are mutated
in place; here the dict is rebuilt with the mapped list, which is
observationally identical (a missing or non-list `products` field leaves
the payload untouched, matching the `get` default / `isinstance` early
return).  A failing `int()` aborts with the exception. -/
def update_dates_only (strftime : Int → String → String) (today : Int) :
    PyVal → Except PyErr PyVal
  | .pyDict pd =>
    match dictLookup pd "products" with
    | some (.pyList items) =>
      match updItems strftime today items with
      | .error e => .error e
      | .ok items2 => .ok (.pyDict (dictSet pd "products" (.pyList items2)))
    | some _ => .ok (.pyDict pd)
    | none => .ok (.pyDict pd)
  | _ => .error (.otherError "AttributeError")

/-- The two `except` branches of `auto_update_job`: a `DeviceError` is
recorded verbatim, any other exception is recorded with the `Unexpected: `
prefix; both stamp `last_run_utc` and set `last_status = ERROR`. -/
def recordError (sch : AutoUpdateSchedule) (now : String) : PyErr → AutoUpdateSchedule
  | .deviceError m =>
    { sch with last_run_utc := some now, last_status := some "ERROR", last_error := some m }
  | .otherError m =>
    { sch with last_run_utc := some now, last_status := some "ERROR",
               last_error := some ("Unexpected: " ++ m) }

/-- `auto_update_job(device_id)`: one full synchronization run.  The device
and schedule rows stand for the two DB lookups; the returned pair is the
final state of those rows (the job never re-raises: every outcome of the
try block is converted into a schedule status write). -/
def auto_update_job (jsonLoads : String → Except PyErr PyVal)
    (jsonDumps : PyVal → String) (strftime : Int → String → String) (today : Int)
    (fetchResult : Except PyErr PyVal) (send : PyVal → Except PyErr Unit)
    (products_fix_mode : Bool) (now : String)
    (deviceRow : Option Device) (schedRow : Option AutoUpdateSchedule) :
    Option AutoUpdateSchedule × Option Device :=
  match deviceRow with
  | none => (schedRow, none)
  | some device =>
    match schedRow with
    | none => (none, some device)
    | some sch =>
      if sch.enabled = false then (some sch, some device)
      else
        match fetch_products_and_cache jsonDumps fetchResult device with
        | (device1, .error e) => (some (recordError sch now e), some device1)
        | (device1, .ok products) =>
          match update_dates_only strftime today products with
          | .error e => (some (recordError sch now e), some device1)
          | .ok products2 =>
            let device2 := save_cached_products jsonDumps device1 products2 false
            match push_cache_to_scales jsonLoads send products_fix_mode device2 with
            | (device3, _, .error e) => (some (recordError sch now e), some device3)
            | (device3, _, .ok ()) =>
              (some { sch with last_run_utc := some now, last_status := some "OK",
                               last_error := none }, some device3)

/-! ## `app/services/scheduler_service.py` -/

/-- A live APScheduler job as far as `scheduler_rebuild_jobs_from_db`
manipulates it: its id, interval and device argument. -/
structure SchedJob where
  id : String
  interval_minutes : Nat
  device_id : Nat
  deriving Repr, DecidableEq

/-- Per-schedule body of the rebuild loop: drop an existing job with the
device's id, then re-install it when the schedule is enabled. -/
def rebuildStep (jobs : List SchedJob) (sch : AutoUpdateSchedule) : List SchedJob :=
  let job_id := "auto_update:" ++ toString sch.device_id
  let jobs1 := if jobs.any (fun j => j.id == job_id)
    then jobs.filter (fun j => j.id != job_id) else jobs
  if sch.enabled then jobs1 ++ [⟨job_id, sch.interval_minutes, sch.device_id⟩] else jobs1

/-- `scheduler_rebuild_jobs_from_db()`: guarded by the global
`scheduler_enabled` flag.  Returns the resulting live job set and the
number of Schedule Store queries performed (`db.query(...).all()` calls). -/
def scheduler_rebuild_jobs_from_db (scheduler_enabled : Bool)
    (schedules : List AutoUpdateSchedule) (jobs : List SchedJob) :
    List SchedJob × Nat :=
  if scheduler_enabled = false then (jobs, 0)
  else (schedules.foldl rebuildStep jobs, 1)

/-! ## `app/services/scales_service.py`: FaultIsolator
(`_bisect_find_minimal_failing_group`, `find_products_breaking_upload`)

`upload_fn` only ever receives `_build_payload_with_products(template, s)`,
i.e. a fixed template whose `products` field is the tested subset, so the
search core is stated over the success predicate `ok : List α → Bool`
induced on subsets; the dict-level wrapper instantiates it.  The source's
recursion/loop can genuinely diverge, hence the explicit `fuel` arguments:
`none` is an out-of-fuel marker, and a result that is `none` for *every*
fuel is a true non-termination of the Python code (RecursionError). -/

/-- Combinatorial probe of `_bisect_find_minimal_failing_group`: with
`base = [left[0]]` (never extended in the source), try `base + [item]` for
each right-half item in order, returning the first failing candidate. -/
def comboFind {α : Type} (ok : List α → Bool) (l0 : α) : List α → Option (List α)
  | [] => none
  | r :: rs => if ok [l0, r] then comboFind ok l0 rs else some [l0, r]

/-- `_bisect_find_minimal_failing_group(upload_fn, template, group)`: the
source's `left`/`right` locals (`group[:mid]`/`group[mid:]` with
`mid = len(group) // 2`) are inlined as `take`/`drop`. -/
def bisectMinFail {α : Type} (ok : List α → Bool) : Nat → List α → Option (List α)
  | 0, _ => none
  | fuel + 1, group =>
    if group.length ≤ 1 then some group
    else if ok (group.take (group.length / 2)) then
      if ok (group.drop (group.length / 2)) then
        match group.head? with
        | some l0 =>
          match comboFind ok l0 (group.drop (group.length / 2)) with
          | some cand => bisectMinFail ok fuel cand
          | none => some group
        | none => some group
      else bisectMinFail ok fuel (group.drop (group.length / 2))
    else bisectMinFail ok fuel (group.take (group.length / 2))

/-- `FindBadProductsResult` dataclass. -/
structure FindBadProductsResult (α : Type) where
  ok_count : Nat
  total_count : Nat
  bad_items : List α
  minimal_failing_groups : List (List α)

/-- `ProductRef` dataclass (used only for the confirmation-loop log label,
but its construction can raise). -/
structure ProductRef where
  plu : String
  code : String
  name : String

/-- `ProductRef.from_item(item)`: `str(item.get(k, ""))` for the three
fields.  On a non-dict item `item.get` raises `AttributeError`, which in
the source aborts the whole search. -/
def ProductRef.from_item : PyVal → Except PyErr ProductRef
  | .pyDict kvs =>
    .ok ⟨pyStrOf (dictGetD kvs "pluNumber" (.pyStr "")),
         pyStrOf (dictGetD kvs "code" (.pyStr "")),
         pyStrOf (dictGetD kvs "name" (.pyStr ""))⟩
  | _ => .error (.otherError "AttributeError")

/-- The per-item confirmation loop over a failing group
(`for it in failing_group: ...`): each item is re-tested alone and
collected when it fails; building the item's `ProductRef` label raises on
a non-dict item, aborting the search with that exception. -/
def confirmSingles (ok : List PyVal → Bool) : List PyVal → Except PyErr (List PyVal)
  | [] => .ok []
  | it :: rest =>
    match ProductRef.from_item it with
    | .error e => .error e
    | .ok _ =>
      match confirmSingles ok rest with
      | .error e => .error e
      | .ok bs => .ok (if ok [it] then bs else it :: bs)

/-- Outcome of the chunk-scan loop: a result, fuel exhaustion (modelling
non-termination), or a raised Python exception. -/
inductive LoopOutcome where
  | done (r : FindBadProductsResult PyVal)
  | fuelOut
  | raised (e : PyErr)

/-- The adaptive chunk-scan `while` loop of `find_products_breaking_upload`:
successful chunks advance and double the chunk size up to the cap, a failing
multi-item chunk is bisected and its minimal group confirmed item by item
(`confirmSingles`, which raises on a non-dict group item), a failing single
item is recorded directly; after any failure the chunk size resets to the
initial value. -/
def findLoop (ok : List PyVal → Bool) (items : List PyVal)
    (initial_chunk_size max_chunk_size bfuel : Nat) :
    Nat → Nat → Nat → Nat → List PyVal → List (List PyVal) → LoopOutcome
  | 0, _, _, _, _, _ => .fuelOut
  | fuel + 1, idx, csize, okc, bad, groups =>
    if idx < items.length then
      if ok ((items.drop idx).take csize) then
        findLoop ok items initial_chunk_size max_chunk_size bfuel fuel
          (idx + ((items.drop idx).take csize).length)
          (if csize < max_chunk_size then min max_chunk_size (csize * 2) else csize)
          (okc + ((items.drop idx).take csize).length) bad groups
      else if 1 < ((items.drop idx).take csize).length then
        match bisectMinFail ok bfuel ((items.drop idx).take csize) with
        | none => .fuelOut
        | some fg =>
          match confirmSingles ok fg with
          | .error e => .raised e
          | .ok newbad =>
            findLoop ok items initial_chunk_size max_chunk_size bfuel fuel
              (idx + ((items.drop idx).take csize).length) (max 1 initial_chunk_size) okc
              (bad ++ newbad) (groups ++ [fg])
      else
        match (items.drop idx).take csize with
        | c :: _ =>
          findLoop ok items initial_chunk_size max_chunk_size bfuel fuel
            (idx + 1) (max 1 initial_chunk_size) okc (bad ++ [c]) groups
        | [] => .raised (.otherError "IndexError")
    else .done ⟨okc, items.length, bad, groups⟩

/-- Outcome of `find_products_breaking_upload`: a result, the `ValueError`
of a malformed payload, a Python exception escaping the search, or
non-termination of the search. -/
inductive FindOutcome (α : Type) where
  | ok (r : FindBadProductsResult α)
  | valueError (msg : String)
  | raised (e : PyErr)
  | nonterm

/-- The reported bad-item list, when the search returned a result. -/
def FindOutcome.badItemsOf {α : Type} : FindOutcome α → Option (List α)
  | .ok r => some r.bad_items
  | _ => none

/-- `find_products_breaking_upload(upload_fn, full_payload, ...)`.  `okD`
is the success predicate of `upload_fn` on whole payload dicts. -/
def find_products_breaking_upload (okD : PyVal → Bool) (full_payload : PyDict)
    (lfuel bfuel initial_chunk_size max_chunk_size : Nat)
    (raise_on_empty_products : Bool) : FindOutcome PyVal :=
  match dictLookup full_payload "products" with
  | some (.pyList items) =>
    let template := dictSet full_payload "products" (.pyList [])
    let ok : List PyVal → Bool :=
      fun s => okD (.pyDict (dictSet template "products" (.pyList s)))
    match findLoop ok items initial_chunk_size max_chunk_size bfuel
        lfuel 0 (max 1 initial_chunk_size) 0 [] [] with
    | .done r => .ok r
    | .fuelOut => .nonterm
    | .raised e => .raised e
  | _ =>
    if raise_on_empty_products then .valueError "Payload must contain list field \"products\""
    else .ok ⟨0, 0, [], []⟩

/-- Modelled from the spec (§4.3a / claim C1), not from the source: the
FaultIsolator's adaptive chunk scan "walks the item list in chunks,
starting at a configurable initial size (default 50)", so its first upload
attempt after the bulk failure carries `min total initial` items. -/
def spec_faultIsolator_first_attempt_size (total initial : Nat) : Nat :=
  min total initial

/-- Length of a payload's `products` list, when it is a dict with one. -/
def payloadProductsCount : PyVal → Option Nat
  | .pyDict pd =>
    match dictLookup pd "products" with
    | some (.pyList s) => some s.length
    | _ => none
  | _ => none

/-- Whether a value is a Python dict. -/
def isPyDict : PyVal → Bool
  | .pyDict _ => true
  | _ => false

/-! ## Concrete fixtures used by counterexamples and witnesses -/

/-- Catalog item with pluNumber 1. -/
def itA : PyVal := .pyDict [("pluNumber", .pyInt 1)]

/-- Catalog item with pluNumber 2. -/
def itB : PyVal := .pyDict [("pluNumber", .pyInt 2)]

/-- Recognizer for `itA`. -/
def isItA : PyVal → Bool
  | .pyDict [("pluNumber", .pyInt 1)] => true
  | _ => false

/-- Recognizer for `itB`. -/
def isItB : PyVal → Bool
  | .pyDict [("pluNumber", .pyInt 2)] => true
  | _ => false

/-- Upload oracle for the combinatorial-defect scenario: a payload fails
exactly when its `products` list contains both `itA` and `itB`. -/
def okAB : PyVal → Bool
  | .pyDict d =>
    match dictLookup d "products" with
    | some (.pyList s) => !(s.any isItA && s.any isItB)
    | _ => true
  | _ => true

/-- Two-item payload `{"products": [itA, itB]}`. -/
def paylAB : PyDict := [("products", .pyList [itA, itB])]

/-- The upload predicate `find_products_breaking_upload` induces on item
subsets for the payload `paylAB` and oracle `okAB`. -/
def okABsub : List PyVal → Bool :=
  fun s => okAB (.pyDict (dictSet (dictSet paylAB "products" (.pyList []))
    "products" (.pyList s)))

/-- Item 1 of the three-item fix-mode fixture. -/
def itm1 : PyVal := .pyDict [("pluNumber", .pyInt 1), ("name", .pyStr "a")]

/-- Item 2 of the three-item fix-mode fixture. -/
def itm2 : PyVal := .pyDict [("pluNumber", .pyInt 2), ("name", .pyStr "b")]

/-- Item 3 of the three-item fix-mode fixture. -/
def itm3 : PyVal := .pyDict [("pluNumber", .pyInt 3), ("name", .pyStr "c")]

/-- Three-item catalog dict for the fix-mode scenario. -/
def pd3 : PyDict := [("products", .pyList [itm1, itm2, itm3])]

/-- Upload oracle that rejects any payload of three or more products and
accepts smaller ones (so the bulk push fails but every single item
succeeds alone). -/
def send3 : PyVal → Except PyErr Unit := fun p =>
  match payloadProductsCount p with
  | some n => if 3 ≤ n then .error (.deviceError "boom") else .ok ()
  | none => .ok ()

/-- Device row whose cache column deserializes (via `jl3`) to `pd3`. -/
def dev3 : Device := ⟨1, some "CACHE", true⟩

/-- JSON decoder stub returning the three-item catalog. -/
def jl3 : String → Except PyErr PyVal := fun _ => .ok (.pyDict pd3)

/-- Upload oracle whose payloads fail exactly when they contain `itm2`
(so item 2 is the first item that fails alone). -/
def sendBad2 : PyVal → Except PyErr Unit := fun p =>
  match p with
  | .pyDict d =>
    match dictLookup d "products" with
    | some (.pyList s) =>
      if s.any (fun v => match v with
        | .pyDict [("pluNumber", .pyInt 2), ("name", .pyStr "b")] => true
        | _ => false) then .error (.otherError "x") else .ok ()
    | _ => .ok ()
  | _ => .ok ()

/-! ## Claim C8: rebuild is gated by the scheduler feature flag -/

/-- C8: when the global scheduler-enabled feature flag is false, `rebuild`
(`scheduler_rebuild_jobs_from_db`) returns without performing any Schedule
Store query (query count 0) and without any change to the live job set;
the flag is checked before any store access. -/
theorem rebuild_skips_when_flag_disabled (flag : Bool)
    (schedules : List AutoUpdateSchedule) (jobs : List SchedJob)
    (h : flag = false) :
    scheduler_rebuild_jobs_from_db flag schedules jobs = (jobs, 0) := by
  subst h
  rfl

/-- Witness for C8 at a concrete store and job set. -/
theorem rebuild_skips_when_flag_disabled_witness :
    scheduler_rebuild_jobs_from_db false [⟨5, true, 60, none, none, none⟩]
      [⟨"auto_update:5", 60, 5⟩] = ([⟨"auto_update:5", 60, 5⟩], 0) :=
  rebuild_skips_when_flag_disabled false [⟨5, true, 60, none, none, none⟩]
    [⟨"auto_update:5", 60, 5⟩] rfl

/-! ## Claim C5: failed fetch or failed validation leaves the cache untouched -/

/-- C5: if the device fetch raises a `DeviceError`, or the fetched catalog
fails pluNumber-uniqueness validation, `fetch_products_and_cache` writes
nothing to the Catalog Cache Store: the device row (its cached products
payload and dirty flag) is returned exactly as it was. -/
theorem fetch_failure_leaves_cache_untouched (jsonDumps : PyVal → String)
    (device : Device) :
    (∀ m : String,
      fetch_products_and_cache jsonDumps (.error (.deviceError m)) device
        = (device, .error (.deviceError m)))
    ∧ (∀ (products : PyVal) (e : PyErr), validate_plu_uniqueness products = .error e →
        fetch_products_and_cache jsonDumps (.ok products) device = (device, .error e)) := by
  constructor
  · intro m
    rfl
  · intro products e he
    simp [fetch_products_and_cache, he]

/-- Witness for C5: a concrete device error leaves a concrete device row
unchanged. -/
theorem fetch_failure_leaves_cache_untouched_witness :
    fetch_products_and_cache (fun _ => "") (.error (.deviceError "no route"))
      ⟨7, some "old-cache", true⟩
      = (⟨7, some "old-cache", true⟩, .error (.deviceError "no route")) :=
  (fetch_failure_leaves_cache_untouched (fun _ => "") ⟨7, some "old-cache", true⟩).1 "no route"

/-! ## Claim C10: empty cache loads as an explicit empty catalog; push refuses it -/

/-- C10: for a device whose cached products payload is absent or empty,
`load_cached_products` returns the catalog `{"products": []}` rather than
failing, and `push_cache_to_scales` refuses such a device with a
`DeviceError` before any upload attempt (empty attempt trace). -/
theorem empty_cache_loads_empty_and_push_refuses
    (jsonLoads : String → Except PyErr PyVal) (send : PyVal → Except PyErr Unit)
    (fix : Bool) (device : Device)
    (h : optStrFalsy device.products_cache_json = true) :
    load_cached_products jsonLoads device = .ok (.pyDict [("products", .pyList [])])
    ∧ push_cache_to_scales jsonLoads send fix device
        = (device, [], .error (.deviceError
            "Нет кэша товаров для загрузки. Сначала выполните выгрузку товаров с весов.")) := by
  constructor
  · simp [load_cached_products, h]
  · simp [push_cache_to_scales, h]

/-- Witness for C10 at a device with a NULL cache column. -/
theorem empty_cache_loads_empty_and_push_refuses_witness :
    load_cached_products (fun _ => .error (.otherError "unused")) ⟨3, none, false⟩
      = .ok (.pyDict [("products", .pyList [])])
    ∧ push_cache_to_scales (fun _ => .error (.otherError "unused"))
        (fun _ => .ok ()) true ⟨3, none, false⟩
        = (⟨3, none, false⟩, [], .error (.deviceError
            "Нет кэша товаров для загрузки. Сначала выполните выгрузку товаров с весов.")) :=
  empty_cache_loads_empty_and_push_refuses (fun _ => .error (.otherError "unused"))
    (fun _ => .ok ()) true ⟨3, none, false⟩ rfl

/-! ## Claim C2: the pair-defect bisection never terminates -/

/-- Helper for C2: on the two-item group that fails only as a pair, the
bisection recurses on an identical group forever (both halves succeed, the
combinatorial probe returns the very same pair), so it exhausts any fuel. -/
theorem bisectMinFail_pair_defect_diverges :
    ∀ bf : Nat, bisectMinFail okABsub bf [itA, itB] = none := by
  intro bf
  induction bf with
  | zero => rfl
  | succ n ih =>
    show bisectMinFail okABsub n [itA, itB] = none
    exact ih

/-- C2 (code bug): on the catalog `{"products": [itA, itB]}` whose items
each upload fine alone but fail together (oracle `okAB`), the isolation
`find_products_breaking_upload` does not terminate, whatever fuel it is
given: `_bisect_find_minimal_failing_group` re-bisects the combinatorial
candidate `[itA, itB]`, which is the group itself, in an infinite
recursion (a Python `RecursionError`), instead of reporting the minimal
failing group `{A, B}` with zero confirmed single bad items as the spec
states. -/
theorem find_products_pair_defect_diverges (lfuel bfuel : Nat) :
    find_products_breaking_upload okAB paylAB lfuel bfuel 50 500 true
      = .nonterm := by
  cases lfuel with
  | zero => rfl
  | succ n =>
    have hloop : findLoop okABsub [itA, itB] 50 500 bfuel (n + 1) 0 (max 1 50) 0 [] []
        = .fuelOut := by
      unfold findLoop
      simp only [show (max 1 50 : Nat) = 50 from rfl,
        show List.take 50 (List.drop 0 [itA, itB]) = [itA, itB] from rfl,
        show okABsub [itA, itB] = false from rfl,
        bisectMinFail_pair_defect_diverges bfuel]
      norm_num
    unfold find_products_breaking_upload
    simp only [show dictLookup paylAB "products" = some (.pyList [itA, itB]) from rfl,
      show (fun s => okAB (.pyDict (dictSet (dictSet paylAB "products" (.pyList []))
        "products" (.pyList s)))) = okABsub from rfl, hloop]

/-! ## Claim C1: what fix mode actually triggers on a bulk push failure -/

/-- Every payload built by `singlePayload` carries exactly one product. -/
theorem payloadProductsCount_singlePayload (t : PyDict) (it : PyVal) :
    payloadProductsCount (singlePayload t it) = some 1 := by
  simp [payloadProductsCount, singlePayload, dictLookup_dictSet]

/-- Every upload attempt in `diagnoseGo`'s trace is a single-item payload. -/
theorem diagnoseGo_trace_singles (send : PyVal → Except PyErr Unit)
    (template : PyDict) :
    ∀ (items : List PyVal) (idx : Nat) (p : PyVal),
      p ∈ (diagnoseGo send template items idx).1 →
      ∃ it, p = singlePayload template it := by
  intro items
  induction items with
  | nil =>
    intro idx p hp
    simp [diagnoseGo] at hp
  | cons item rest ih =>
    intro idx p hp
    cases item with
    | pyDict kvs =>
      rcases hsend : send (singlePayload template (.pyDict kvs)) with e | u
      · simp [diagnoseGo, hsend] at hp
        exact ⟨.pyDict kvs, hp⟩
      · rcases hrec : diagnoseGo send template rest (idx + 1) with ⟨tr, res⟩
        simp [diagnoseGo, hsend, hrec] at hp
        rcases hp with hp | hp
        · exact ⟨.pyDict kvs, hp⟩
        · exact ih (idx + 1) p (by rw [hrec]; exact hp)
    | pyNone => simp [diagnoseGo] at hp
    | pyBool b => simp [diagnoseGo] at hp
    | pyInt n => simp [diagnoseGo] at hp
    | pyStr s => simp [diagnoseGo] at hp
    | pyList xs => simp [diagnoseGo] at hp

/-- C1 (counterexample to the claim as stated): a concrete three-item
catalog, fix mode on, bulk push failing (`send3` rejects payloads of three
or more products).  The upload attempts `push_cache_to_scales` makes are
the bulk payload followed by three one-item payloads — the first
diagnostic attempt carries 1 item, not the `min total initial = 3` items
the spec's chunked FaultIsolator walk (initial chunk size 50) would
attempt first. -/
theorem push_fix_mode_not_chunked_counterexample :
    ((push_cache_to_scales jl3 send3 true dev3).2.1.map payloadProductsCount)
      = [some 3, some 1, some 1, some 1]
    ∧ spec_faultIsolator_first_attempt_size 3 50 = 3
    ∧ ((push_cache_to_scales jl3 send3 true dev3).2.1.map payloadProductsCount).get? 1
        ≠ some (some (spec_faultIsolator_first_attempt_size 3 50)) := by
  refine ⟨rfl, rfl, ?_⟩
  decide

/-- C1 (amended): when the runner's fix-mode flag is enabled and the bulk
push fails with a `DeviceError`, `push_cache_to_scales` triggers the
per-item diagnostic `diagnose_broken_product` — the bulk attempt is
followed by the diagnostic trace, every entry of which carries exactly one
item — not the chunked `find_products_breaking_upload` isolator; when the
flag is disabled, the failure propagates immediately with no further
upload attempts. -/
theorem push_fix_mode_runs_per_item_diagnosis
    (jsonLoads : String → Except PyErr PyVal) (send : PyVal → Except PyErr Unit)
    (device : Device) (pd : PyDict) (m : String)
    (hc : optStrFalsy device.products_cache_json = false)
    (hload : load_cached_products jsonLoads device = .ok (.pyDict pd))
    (hval : validate_plu_uniqueness (.pyDict pd) = .ok ())
    (hsend : send (.pyDict pd) = .error (.deviceError m)) :
    ((push_cache_to_scales jsonLoads send true device).2.1
        = .pyDict pd :: (diagnose_broken_product send (.pyDict pd)).1
      ∧ ∀ p ∈ (diagnose_broken_product send (.pyDict pd)).1,
          payloadProductsCount p = some 1)
    ∧ push_cache_to_scales jsonLoads send false device
        = (device, [.pyDict pd], .error (.deviceError m)) := by
  refine ⟨⟨?_, ?_⟩, ?_⟩
  · rcases hdg : diagnose_broken_product send (.pyDict pd) with ⟨tr, res⟩
    cases res with
    | error e => simp [push_cache_to_scales, hc, hload, hval, hsend, hdg]
    | ok u => simp [push_cache_to_scales, hc, hload, hval, hsend, hdg]
  · intro p hp
    rcases hgp : dictGetD pd "products" (.pyList []) with _ | b | n | s | items | kvs <;>
      simp only [diagnose_broken_product, hgp] at hp
    · simp at hp
    · simp at hp
    · simp at hp
    · simp at hp
    · obtain ⟨it, hit⟩ := diagnoseGo_trace_singles send
        (dictSet pd "products" (.pyList [])) items 1 p hp
      rw [hit]
      exact payloadProductsCount_singlePayload _ _
    · simp at hp
  · simp [push_cache_to_scales, hc, hload, hval, hsend]

/-- Witness for the amended C1 at the concrete three-item fixture. -/
theorem push_fix_mode_runs_per_item_diagnosis_witness :
    ((push_cache_to_scales jl3 send3 true dev3).2.1
        = .pyDict pd3 :: (diagnose_broken_product send3 (.pyDict pd3)).1
      ∧ ∀ p ∈ (diagnose_broken_product send3 (.pyDict pd3)).1,
          payloadProductsCount p = some 1)
    ∧ push_cache_to_scales jl3 send3 false dev3
        = (dev3, [.pyDict pd3], .error (.deviceError "boom")) :=
  push_fix_mode_runs_per_item_diagnosis jl3 send3 dev3 pd3 "boom" rfl rfl rfl rfl

/-! ## Claim C7: stop at the first confirmed bad item; surface exhaustion -/

/-- When every item is a dict whose single-item upload succeeds, the
diagnostic walks the whole list and returns cleanly. -/
theorem diagnoseGo_all_ok (send : PyVal → Except PyErr Unit) (template : PyDict) :
    ∀ (items : List PyVal) (idx : Nat),
      (∀ it ∈ items, (∃ kvs, it = .pyDict kvs) ∧
          send (singlePayload template it) = .ok ()) →
      diagnoseGo send template items idx
        = (items.map (singlePayload template), .ok ()) := by
  intro items
  induction items with
  | nil => intro idx h; rfl
  | cons item rest ih =>
    intro idx h
    obtain ⟨⟨kvs, hkvs⟩, hsend⟩ := h item (List.mem_cons_self _ _)
    subst hkvs
    have hr := ih (idx + 1) (fun it hit => h it (List.mem_cons_of_mem _ hit))
    simp [diagnoseGo, hsend, hr]

/-- The diagnostic stops at the first item that fails alone: if the items
before position `i` are dicts whose single uploads succeed and item `i` is
a dict whose single upload raises, the trace stops after attempt `i` and a
`DeviceError` carrying `brokenMsg` (index, pluNumber, name) is raised. -/
theorem diagnoseGo_first_fail (send : PyVal → Except PyErr Unit) (template : PyDict) :
    ∀ (items : List PyVal) (idx i : Nat) (kvs : PyDict),
      (∀ j, j < i → ∃ kvsj, items.get? j = some (.pyDict kvsj) ∧
          send (singlePayload template (.pyDict kvsj)) = .ok ()) →
      items.get? i = some (.pyDict kvs) →
      (∃ e, send (singlePayload template (.pyDict kvs)) = .error e) →
      diagnoseGo send template items idx
        = ((items.take i).map (singlePayload template)
            ++ [singlePayload template (.pyDict kvs)],
           .error (.deviceError (brokenMsg (idx + i) kvs))) := by
  intro items
  induction items with
  | nil => intro idx i kvs hprev hi hfail; simp at hi
  | cons item rest ih =>
    intro idx i kvs hprev hi hfail
    cases i with
    | zero =>
      rw [List.get?_cons_zero] at hi
      injection hi with hi
      subst hi
      obtain ⟨e, he⟩ := hfail
      simp [diagnoseGo, he]
    | succ j =>
      obtain ⟨kvs0, h0get, h0send⟩ := hprev 0 (Nat.succ_pos j)
      rw [List.get?_cons_zero] at h0get
      injection h0get with h0get
      subst h0get
      have hrest := ih (idx + 1) j kvs
        (fun j2 hj2 => by
          obtain ⟨kv, hg, hs⟩ := hprev (j2 + 1) (Nat.succ_lt_succ hj2)
          rw [List.get?_cons_succ] at hg
          exact ⟨kv, hg, hs⟩)
        (by rw [List.get?_cons_succ] at hi; exact hi) hfail
      have hidx : idx + 1 + j = idx + (j + 1) := by omega
      simp [diagnoseGo, h0send, hrest, hidx]

/-- C7: during diagnostic isolation, as soon as some item fails when
uploaded alone the isolator stops and raises a `DeviceError` carrying that
first bad item's identity (1-based index, pluNumber, name via
`brokenMsg`); and if every individual item uploads successfully alone,
`push_cache_to_scales` re-raises the original bulk `DeviceError` — the run
surfaces as that error, never as a success with zero bad items. -/
theorem diagnose_first_bad_or_exhaustion
    (jsonLoads : String → Except PyErr PyVal) (send : PyVal → Except PyErr Unit)
    (pd : PyDict) (items : List PyVal)
    (hitems : dictGetD pd "products" (.pyList []) = .pyList items) :
    (∀ (i : Nat) (kvs : PyDict),
      (∀ j, j < i → ∃ kvsj, items.get? j = some (.pyDict kvsj) ∧
          send (singlePayload (dictSet pd "products" (.pyList [])) (.pyDict kvsj)) = .ok ()) →
      items.get? i = some (.pyDict kvs) →
      (∃ e, send (singlePayload (dictSet pd "products" (.pyList [])) (.pyDict kvs)) = .error e) →
      diagnose_broken_product send (.pyDict pd)
        = ((items.take i).map (singlePayload (dictSet pd "products" (.pyList [])))
            ++ [singlePayload (dictSet pd "products" (.pyList [])) (.pyDict kvs)],
           .error (.deviceError (brokenMsg (1 + i) kvs))))
    ∧ (∀ (device : Device) (m : String),
        optStrFalsy device.products_cache_json = false →
        load_cached_products jsonLoads device = .ok (.pyDict pd) →
        validate_plu_uniqueness (.pyDict pd) = .ok () →
        send (.pyDict pd) = .error (.deviceError m) →
        (∀ it ∈ items, (∃ kvs, it = .pyDict kvs) ∧
            send (singlePayload (dictSet pd "products" (.pyList [])) it) = .ok ()) →
        push_cache_to_scales jsonLoads send true device
          = (device,
             .pyDict pd :: items.map (singlePayload (dictSet pd "products" (.pyList []))),
             .error (.deviceError m))) := by
  constructor
  · intro i kvs hprev hi hfail
    have hgo := diagnoseGo_first_fail send (dictSet pd "products" (.pyList []))
      items 1 i kvs hprev hi hfail
    simp [diagnose_broken_product, hitems, hgo]
  · intro device m hc hload hval hsend hall
    have hgo := diagnoseGo_all_ok send (dictSet pd "products" (.pyList [])) items 1 hall
    have hdg : diagnose_broken_product send (.pyDict pd)
        = (items.map (singlePayload (dictSet pd "products" (.pyList []))), .ok ()) := by
      simp [diagnose_broken_product, hitems, hgo]
    simp [push_cache_to_scales, hc, hload, hval, hsend, hdg]

/-- Witness for C7: the first-bad-item message at the concrete fixture
where item 2 fails alone, and the exhaustion re-raise at the fixture where
only the bulk payload fails. -/
theorem diagnose_first_bad_or_exhaustion_witness :
    diagnose_broken_product sendBad2 (.pyDict pd3)
      = ([singlePayload (dictSet pd3 "products" (.pyList [])) itm1,
          singlePayload (dictSet pd3 "products" (.pyList [])) itm2],
         .error (.deviceError "Найден проблемный товар: index=2, pluNumber=2, name=b"))
    ∧ push_cache_to_scales jl3 send3 true dev3
        = (dev3,
           .pyDict pd3 :: [itm1, itm2, itm3].map
             (singlePayload (dictSet pd3 "products" (.pyList []))),
           .error (.deviceError "boom")) := by
  constructor
  · have h := (diagnose_first_bad_or_exhaustion jl3 sendBad2 pd3 [itm1, itm2, itm3] rfl).1
      1 [("pluNumber", .pyInt 2), ("name", .pyStr "b")]
      (fun j hj => by
        match j, hj with
        | 0, _ => exact ⟨[("pluNumber", .pyInt 1), ("name", .pyStr "a")], rfl, rfl⟩)
      rfl ⟨.otherError "x", rfl⟩
    exact h
  · exact (diagnose_first_bad_or_exhaustion jl3 send3 pd3 [itm1, itm2, itm3] rfl).2
      dev3 "boom" rfl rfl rfl rfl
      (by intro it hit; fin_cases hit <;> exact ⟨⟨_, rfl⟩, rfl⟩)

/-! ## Claim C9: exact semantics of the pluNumber uniqueness validation -/

/-- The `str(pluNumber)` key the validation derives from an item, when the
item is a dict that has the key (`none` for ignored entries). -/
def keyStrOf : PyVal → Option String
  | .pyDict kvs => (dictLookup kvs "pluNumber").map pyStrOf
  | _ => none

/-- The sequence of string-converted pluNumbers of the dict entries that
carry the key; non-dict entries and dicts without the key contribute
nothing. -/
def pluKeys (items : List PyVal) : List String :=
  items.filterMap keyStrOf

/-- The scan raises exactly when some derived key was already seen or the
derived key sequence itself has a repeat. -/
theorem pluScan_error_iff :
    ∀ (items : List PyVal) (seen : List String),
      (∃ e, pluScan items seen = .error e) ↔
        (∃ s ∈ pluKeys items, seen.contains s = true) ∨ ¬ (pluKeys items).Nodup := by
  intro items
  induction items with
  | nil =>
    intro seen
    simp [pluScan, pluKeys]
  | cons p rest ih =>
    intro seen
    cases p with
    | pyDict kvs =>
      rcases hl : dictLookup kvs "pluNumber" with _ | v
      · have hk : pluKeys (.pyDict kvs :: rest) = pluKeys rest := by
          simp [pluKeys, keyStrOf, hl]
        rw [hk]
        rw [show pluScan (.pyDict kvs :: rest) seen = pluScan rest seen by
          simp [pluScan, hl]]
        exact ih seen
      · have hk : pluKeys (.pyDict kvs :: rest) = pyStrOf v :: pluKeys rest := by
          simp [pluKeys, keyStrOf, hl]
        rw [hk]
        by_cases hs : seen.contains (pyStrOf v)
        · rw [show pluScan (.pyDict kvs :: rest) seen = .error (.deviceError
            ("Нарушение уникальности pluNumber в рамках устройства: pluNumber="
              ++ pyStrOf v)) by simp only [pluScan, hl]; rw [if_pos hs]]
          constructor
          · intro _
            exact Or.inl ⟨pyStrOf v, List.mem_cons_self _ _, hs⟩
          · intro _
            exact ⟨_, rfl⟩
        · rw [show pluScan (.pyDict kvs :: rest) seen
              = pluScan rest (pyStrOf v :: seen) by
            simp only [pluScan, hl]; rw [if_neg hs]]
          rw [ih (pyStrOf v :: seen)]
          simp only [List.contains_cons, List.nodup_cons, Bool.or_eq_true,
            beq_iff_eq, List.mem_cons]
          constructor
          · rintro (⟨s, hsmem, hseq | hsseen⟩ | hnd)
            · subst hseq
              right
              intro hcon
              rcases hcon with ⟨hv, _⟩
              exact hv hsmem
            · exact Or.inl ⟨s, Or.inr hsmem, hsseen⟩
            · right
              intro hcon
              exact hnd hcon.2
          · rintro (⟨s, hsmem | hsmem, hsseen⟩ | hnd)
            · subst hsmem
              exact absurd hsseen (by simpa using hs)
            · exact Or.inl ⟨s, hsmem, Or.inr hsseen⟩
            · by_cases hmem : pyStrOf v ∈ pluKeys rest
              · exact Or.inl ⟨pyStrOf v, hmem, Or.inl rfl⟩
              · by_cases hnd2 : (pluKeys rest).Nodup
                · exact absurd ⟨hmem, hnd2⟩ hnd
                · exact Or.inr hnd2
    | pyNone =>
      rw [show pluKeys (.pyNone :: rest) = pluKeys rest by simp [pluKeys, keyStrOf],
        show pluScan (.pyNone :: rest) seen = pluScan rest seen by simp [pluScan]]
      exact ih seen
    | pyBool b =>
      rw [show pluKeys (.pyBool b :: rest) = pluKeys rest by simp [pluKeys, keyStrOf],
        show pluScan (.pyBool b :: rest) seen = pluScan rest seen by simp [pluScan]]
      exact ih seen
    | pyInt n =>
      rw [show pluKeys (.pyInt n :: rest) = pluKeys rest by simp [pluKeys, keyStrOf],
        show pluScan (.pyInt n :: rest) seen = pluScan rest seen by simp [pluScan]]
      exact ih seen
    | pyStr s =>
      rw [show pluKeys (.pyStr s :: rest) = pluKeys rest by simp [pluKeys, keyStrOf],
        show pluScan (.pyStr s :: rest) seen = pluScan rest seen by simp [pluScan]]
      exact ih seen
    | pyList xs =>
      rw [show pluKeys (.pyList xs :: rest) = pluKeys rest by simp [pluKeys, keyStrOf],
        show pluScan (.pyList xs :: rest) seen = pluScan rest seen by simp [pluScan]]
      exact ih seen

/-- C9: `validate_plu_uniqueness` raises its duplicate-key error iff two
dict entries of the products list have pluNumber values equal after string
conversion (some string occurs at least twice among the derived keys, so a
numeric 12 and the string "12" collide); entries that are not dicts or
lack the key never trigger it (they contribute nothing to `pluKeys`); and
a `products` field that is not a list is itself a validation error. -/
theorem validate_plu_uniqueness_spec (pd : PyDict) :
    (∀ items : List PyVal, dictGetD pd "products" (.pyList []) = .pyList items →
      ((∃ e, validate_plu_uniqueness (.pyDict pd) = .error e) ↔
        ∃ s, 2 ≤ (pluKeys items).count s))
    ∧ (∀ v : PyVal, dictGetD pd "products" (.pyList []) = v →
        (∀ xs : List PyVal, v ≠ .pyList xs) →
        validate_plu_uniqueness (.pyDict pd)
          = .error (.deviceError "Некорректный формат: поле products должно быть массивом.")) := by
  constructor
  · intro items hitems
    rw [show validate_plu_uniqueness (.pyDict pd) = pluScan items [] by
      simp [validate_plu_uniqueness, hitems]]
    rw [pluScan_error_iff items []]
    have hnc : ∀ s : String, ([] : List String).contains s = false := fun s => rfl
    simp only [hnc]
    rw [List.nodup_iff_count_le_one]
    constructor
    · rintro (⟨s, _, hfalse⟩ | hnd)
      · cases hfalse
      · push_neg at hnd
        obtain ⟨s, hs⟩ := hnd
        exact ⟨s, by omega⟩
    · rintro ⟨s, hs⟩
      right
      intro hall
      have := hall s
      omega
  · intro v hv hne
    subst hv
    rcases hval : dictGetD pd "products" (.pyList []) with _ | b | n | s | xs | kvs
    · simp [validate_plu_uniqueness, hval]
    · simp [validate_plu_uniqueness, hval]
    · simp [validate_plu_uniqueness, hval]
    · simp [validate_plu_uniqueness, hval]
    · exact absurd hval (hne xs)
    · simp [validate_plu_uniqueness, hval]

/-- Witness for C9: the duplicate pair `12` (int) and `"12"` (string) in a
concrete catalog makes the validation raise. -/
theorem validate_plu_uniqueness_spec_witness :
    ∃ e, validate_plu_uniqueness (.pyDict
      [("products", .pyList [.pyDict [("pluNumber", .pyInt 12)],
                             .pyStr "ignored",
                             .pyDict [("code", .pyInt 7)],
                             .pyDict [("pluNumber", .pyStr "12")]])]) = .error e :=
  ((validate_plu_uniqueness_spec
      [("products", .pyList [.pyDict [("pluNumber", .pyInt 12)],
                             .pyStr "ignored",
                             .pyDict [("code", .pyInt 7)],
                             .pyDict [("pluNumber", .pyStr "12")]])]).1 _ rfl).mpr
    ⟨"12", by decide⟩

/-! ## Claim C6: the transform stamps manufacture and sell-by dates -/

/-- When every item is a dict with a convertible shelf life, the item
traversal succeeds and equals the total per-item map. -/
theorem updItems_all_ok (strftime : Int → String → String) (today : Int) :
    ∀ items : List PyVal,
      (∀ it ∈ items, isPyDict it = true ∧ (shelfOf it).isSome = true) →
      updItems strftime today items
        = .ok (items.map (updItemOk strftime today)) := by
  intro items
  induction items with
  | nil => intro h; rfl
  | cons item rest ih =>
    intro h
    obtain ⟨hd, hs⟩ := h item (List.mem_cons_self _ _)
    have hr := ih (fun it hit => h it (List.mem_cons_of_mem _ hit))
    cases item with
    | pyDict kvs =>
      rcases hso : shelfOf (.pyDict kvs) with _ | n
      · rw [hso] at hs
        simp at hs
      · have hupd : updItem strftime today (.pyDict kvs)
            = .ok (.pyDict (dictSet
              (dictSet kvs "manufactureDate" (.pyStr (strftime today "%d-%m-%y")))
              "sellByDate" (.pyStr (strftime (today + n) "%d-%m-%y")))) := by
          simp [updItem, hso]
        simp [updItems, hupd, hr, updItemOk]
    | pyNone => simp [isPyDict] at hd
    | pyBool b => simp [isPyDict] at hd
    | pyInt n => simp [isPyDict] at hd
    | pyStr s => simp [isPyDict] at hd
    | pyList xs => simp [isPyDict] at hd

/-- C6: for a catalog whose `products` field is a list of item dicts (each
with a convertible shelf life), `update_dates_only` rewrites the list
item-wise, setting `manufactureDate` to the formatted current date and
`sellByDate` to the formatted current date plus the item's
`shelfLifeInDays` days, both through the fixed `"%d-%m-%y"` format; an
item with shelf life 0 gets `sellByDate` equal to `manufactureDate`. -/
theorem update_dates_only_sets_dates (strftime : Int → String → String)
    (today : Int) (pd : PyDict) (items : List PyVal)
    (hpd : dictLookup pd "products" = some (.pyList items))
    (hitems : ∀ it ∈ items, isPyDict it = true ∧ (shelfOf it).isSome = true) :
    update_dates_only strftime today (.pyDict pd)
      = .ok (.pyDict (dictSet pd "products"
          (.pyList (items.map (updItemOk strftime today)))))
    ∧ (∀ (kvs : PyDict) (n : Int), shelfOf (.pyDict kvs) = some n →
        ∃ kvs2, updItemOk strftime today (.pyDict kvs) = .pyDict kvs2
          ∧ dictLookup kvs2 "manufactureDate"
              = some (.pyStr (strftime today "%d-%m-%y"))
          ∧ dictLookup kvs2 "sellByDate"
              = some (.pyStr (strftime (today + n) "%d-%m-%y"))
          ∧ (n = 0 →
              dictLookup kvs2 "sellByDate" = dictLookup kvs2 "manufactureDate")) := by
  constructor
  · have h := updItems_all_ok strftime today items hitems
    simp [update_dates_only, hpd, h]
  · intro kvs n hn
    refine ⟨dictSet (dictSet kvs "manufactureDate" (.pyStr (strftime today "%d-%m-%y")))
        "sellByDate" (.pyStr (strftime (today + n) "%d-%m-%y")), ?_, ?_, ?_, ?_⟩
    · simp [updItemOk, updItem, hn]
    · rw [dictLookup_dictSet_ne _ _ _ _ (by decide)]
      exact dictLookup_dictSet _ _ _
    · exact dictLookup_dictSet _ _ _
    · intro h0
      subst h0
      have h1 := dictLookup_dictSet
        (dictSet kvs "manufactureDate" (.pyStr (strftime today "%d-%m-%y")))
        "sellByDate" (.pyStr (strftime (today + 0) "%d-%m-%y"))
      have h2 : dictLookup (dictSet
          (dictSet kvs "manufactureDate" (.pyStr (strftime today "%d-%m-%y")))
          "sellByDate" (.pyStr (strftime (today + 0) "%d-%m-%y"))) "manufactureDate"
          = some (.pyStr (strftime today "%d-%m-%y")) := by
        rw [dictLookup_dictSet_ne _ _ _ _ (by decide)]
        exact dictLookup_dictSet _ _ _
      rw [h1, h2, Int.add_zero]

/-- Witness for C6 at a concrete two-item catalog (shelf lives 5 and 0)
with a concrete formatter and date. -/
theorem update_dates_only_sets_dates_witness :
    update_dates_only (fun d f => toString d ++ "|" ++ f) 100
      (.pyDict [("products", .pyList [.pyDict [("shelfLifeInDays", .pyInt 5)],
                                      .pyDict [("shelfLifeInDays", .pyInt 0)]])])
      = .ok (.pyDict (dictSet [("products",
          .pyList [.pyDict [("shelfLifeInDays", .pyInt 5)],
                   .pyDict [("shelfLifeInDays", .pyInt 0)]])] "products"
          (.pyList ([.pyDict [("shelfLifeInDays", .pyInt 5)],
                     .pyDict [("shelfLifeInDays", .pyInt 0)]].map
            (updItemOk (fun d f => toString d ++ "|" ++ f) 100))))) :=
  (update_dates_only_sets_dates (fun d f => toString d ++ "|" ++ f) 100
    [("products", .pyList [.pyDict [("shelfLifeInDays", .pyInt 5)],
                           .pyDict [("shelfLifeInDays", .pyInt 0)]])]
    [.pyDict [("shelfLifeInDays", .pyInt 5)], .pyDict [("shelfLifeInDays", .pyInt 0)]]
    rfl (by decide)).1

/-! ## Claim C4: the runner converts every outcome into a status write -/

/-- C4: `auto_update_job` never propagates an exception (it is a total
function into final row states whose branches below are exhaustive over
the try-block's outcome).  With the device present and the schedule
present and enabled: a failing fetch-and-cache, a failing transform, and a
failing push each end the run with the schedule stamped via `recordError`
(status `ERROR`, the message verbatim for a `DeviceError`, prefixed with
`Unexpected: ` otherwise), while a fully successful run stamps
`last_status = OK` and `last_error = null`; `last_run_utc` is written in
every completed case. -/
theorem auto_update_job_records_every_outcome
    (jsonLoads : String → Except PyErr PyVal) (jsonDumps : PyVal → String)
    (strftime : Int → String → String) (today : Int)
    (fetchResult : Except PyErr PyVal) (send : PyVal → Except PyErr Unit)
    (fix : Bool) (now : String) (device : Device) (sch : AutoUpdateSchedule)
    (he : sch.enabled = true) :
    (∀ m, recordError sch now (.deviceError m)
        = { sch with last_run_utc := some now, last_status := some "ERROR",
                     last_error := some m }
      ∧ recordError sch now (.otherError m)
        = { sch with last_run_utc := some now, last_status := some "ERROR",
                     last_error := some ("Unexpected: " ++ m) })
    ∧ (∀ device1 e, fetch_products_and_cache jsonDumps fetchResult device = (device1, .error e) →
        auto_update_job jsonLoads jsonDumps strftime today fetchResult send fix now
          (some device) (some sch) = (some (recordError sch now e), some device1))
    ∧ (∀ device1 products e,
        fetch_products_and_cache jsonDumps fetchResult device = (device1, .ok products) →
        update_dates_only strftime today products = .error e →
        auto_update_job jsonLoads jsonDumps strftime today fetchResult send fix now
          (some device) (some sch) = (some (recordError sch now e), some device1))
    ∧ (∀ device1 products products2,
        fetch_products_and_cache jsonDumps fetchResult device = (device1, .ok products) →
        update_dates_only strftime today products = .ok products2 →
        (∀ device3 tr e,
          push_cache_to_scales jsonLoads send fix
              (save_cached_products jsonDumps device1 products2 false)
            = (device3, tr, .error e) →
          auto_update_job jsonLoads jsonDumps strftime today fetchResult send fix now
            (some device) (some sch) = (some (recordError sch now e), some device3))
        ∧ (∀ device3 tr,
          push_cache_to_scales jsonLoads send fix
              (save_cached_products jsonDumps device1 products2 false)
            = (device3, tr, .ok ()) →
          auto_update_job jsonLoads jsonDumps strftime today fetchResult send fix now
            (some device) (some sch)
            = (some { sch with last_run_utc := some now, last_status := some "OK",
                               last_error := none }, some device3))) := by
  refine ⟨fun m => ⟨rfl, rfl⟩, ?_, ?_, ?_⟩
  · intro device1 e hf
    simp [auto_update_job, he, hf]
  · intro device1 products e hf hu
    simp [auto_update_job, he, hf, hu]
  · intro device1 products products2 hf hu
    constructor
    · intro device3 tr e hp
      simp [auto_update_job, he, hf, hu, hp]
    · intro device3 tr hp
      simp [auto_update_job, he, hf, hu, hp]

/-- Witness for C4: a fully successful concrete run writes `OK`, and the
same run with a failing fetch writes `ERROR` with the device's message. -/
theorem auto_update_job_records_every_outcome_witness :
    auto_update_job (fun _ => .ok (.pyDict [("products", .pyList [])]))
      (fun _ => "J") (fun d f => toString d ++ f) 0
      (.ok (.pyDict [("products", .pyList [])])) (fun _ => .ok ()) false "NOW"
      (some ⟨1, none, true⟩) (some ⟨1, true, 60, none, none, none⟩)
      = (some ⟨1, true, 60, some "NOW", some "OK", none⟩, some ⟨1, some "J", false⟩)
    ∧ auto_update_job (fun _ => .ok (.pyDict [("products", .pyList [])]))
      (fun _ => "J") (fun d f => toString d ++ f) 0
      (.error (.deviceError "dead scale")) (fun _ => .ok ()) false "NOW"
      (some ⟨1, none, true⟩) (some ⟨1, true, 60, none, none, none⟩)
      = (some ⟨1, true, 60, some "NOW", some "ERROR", some "dead scale"⟩,
         some ⟨1, none, true⟩) := by
  constructor
  · exact ((auto_update_job_records_every_outcome
      (fun _ => .ok (.pyDict [("products", .pyList [])])) (fun _ => "J")
      (fun d f => toString d ++ f) 0 (.ok (.pyDict [("products", .pyList [])]))
      (fun _ => .ok ()) false "NOW" ⟨1, none, true⟩ ⟨1, true, 60, none, none, none⟩
      rfl).2.2.2 ⟨1, some "J", false⟩ (.pyDict [("products", .pyList [])])
      (.pyDict [("products", .pyList [])]) rfl rfl).2 ⟨1, some "J", false⟩
      [.pyDict [("products", .pyList [])]] rfl
  · exact (auto_update_job_records_every_outcome
      (fun _ => .ok (.pyDict [("products", .pyList [])])) (fun _ => "J")
      (fun d f => toString d ++ f) 0 (.error (.deviceError "dead scale"))
      (fun _ => .ok ()) false "NOW" ⟨1, none, true⟩ ⟨1, true, 60, none, none, none⟩
      rfl).2.1 ⟨1, none, true⟩ (.deviceError "dead scale") rfl

/-! ## Claim C3: a unique bad item is isolated exactly -/

/-- A list filters to nothing under `p` iff `any p` is false. -/
theorem filter_nil_iff_any_false {α : Type} (p : α → Bool) (l : List α) :
    l.filter p = [] ↔ l.any p = false := by
  constructor
  · intro h
    rw [← Bool.not_eq_true, List.any_eq_true]
    rintro ⟨x, hx, hpx⟩
    have := List.mem_filter.mpr ⟨hx, hpx⟩
    rw [h] at this
    simp at this
  · intro h
    rw [List.filter_eq_nil_iff]
    intro a ha hpa
    have : l.any p = true := List.any_eq_true.mpr ⟨a, ha, hpa⟩
    rw [h] at this
    cases this

/-- A prefix of a `p`-clean list is `p`-clean. -/
theorem filter_take_nil {α : Type} (p : α → Bool) (l : List α) (n : Nat)
    (h : l.filter p = []) : (l.take n).filter p = [] := by
  rw [List.filter_eq_nil_iff] at h ⊢
  exact fun a ha => h a (List.take_subset n l ha)

/-- A suffix of a `p`-clean list is `p`-clean. -/
theorem filter_drop_nil {α : Type} (p : α → Bool) (l : List α) (n : Nat)
    (h : l.filter p = []) : (l.drop n).filter p = [] := by
  rw [List.filter_eq_nil_iff] at h ⊢
  exact fun a ha => h a (List.drop_subset n l ha)

/-- Advancing past the current chunk lands exactly on the rest of the
suffix: `items[idx + len(chunk):] = items[idx:][csize:]`. -/
theorem drop_idx_add_chunk {α : Type} (l : List α) (idx csize : Nat) :
    l.drop (idx + ((l.drop idx).take csize).length) = (l.drop idx).drop csize := by
  rw [List.length_take, List.length_drop, List.drop_drop]
  rcases le_or_lt csize (l.length - idx) with h | h
  · rw [min_eq_left h, Nat.add_comm]
  · rw [min_eq_right (Nat.le_of_lt h)]
    rw [List.drop_eq_nil_of_le (by omega), List.drop_eq_nil_of_le (by omega)]

/-- On a group whose only bad occurrence is `b`, the bisection walks into
the half containing `b` and returns exactly `[b]` (the combinatorial
branch is never reached: the half holding `b` always fails). -/
theorem bisectMinFail_single_bad {α : Type} (bad : α → Bool) (ok : List α → Bool)
    (hok : ∀ s, ok s = !(s.any bad)) (b : α) :
    ∀ (fuel : Nat) (group : List α), group.length ≤ fuel →
      group.filter bad = [b] → bisectMinFail ok fuel group = some [b] := by
  intro fuel
  induction fuel with
  | zero =>
    intro group hlen hf
    have hg : group = [] := List.length_eq_zero.mp (Nat.le_zero.mp hlen)
    subst hg
    simp at hf
  | succ n ih =>
    intro group hlen hf
    by_cases hsmall : group.length ≤ 1
    · have hg : group = [b] := by
        cases group with
        | nil => simp at hf
        | cons x xs =>
          cases xs with
          | nil =>
            by_cases hx : bad x
            · simp [List.filter, hx] at hf
              rw [hf]
            · simp [List.filter, hx] at hf
          | cons y ys => simp at hsmall
      subst hg
      simp [bisectMinFail]
    · have hfapp : (group.take (group.length / 2)).filter bad
          ++ (group.drop (group.length / 2)).filter bad = [b] := by
        rw [← List.filter_append, List.take_append_drop, hf]
      have hmemb : bad b = true := by
        have hb : b ∈ group.filter bad := by
          rw [hf]
          exact List.mem_singleton.mpr rfl
        exact (List.mem_filter.mp hb).2
      rcases hL : (group.take (group.length / 2)).filter bad with _ | ⟨x, xs⟩
      · rw [hL, List.nil_append] at hfapp
        have hokL : ok (group.take (group.length / 2)) = true := by
          rw [hok, (filter_nil_iff_any_false bad _).mp hL]
          rfl
        have hokR : ok (group.drop (group.length / 2)) = false := by
          rw [hok]
          have : (group.drop (group.length / 2)).any bad = true := by
            rw [List.any_eq_true]
            refine ⟨b, ?_, hmemb⟩
            have hb : b ∈ (group.drop (group.length / 2)).filter bad := by
              rw [hfapp]
              exact List.mem_singleton.mpr rfl
            exact (List.mem_filter.mp hb).1
          rw [this]
          rfl
        have hstep : bisectMinFail ok (n + 1) group
            = bisectMinFail ok n (group.drop (group.length / 2)) := by
          conv_lhs => unfold bisectMinFail
          rw [if_neg hsmall, if_pos hokL, if_neg (by simp [hokR])]
        rw [hstep]
        refine ih _ ?_ hfapp
        rw [List.length_drop]
        omega
      · rw [hL] at hfapp
        rw [List.cons_append] at hfapp
        have hx : x = b := (List.cons.injEq _ _ _ _).mp hfapp |>.1
        have hrest : xs ++ (group.drop (group.length / 2)).filter bad = [] :=
          (List.cons.injEq _ _ _ _).mp hfapp |>.2
        have hxs : xs = [] := (List.append_eq_nil.mp hrest).1
        have hRnil : (group.drop (group.length / 2)).filter bad = [] :=
          (List.append_eq_nil.mp hrest).2
        have hLb : (group.take (group.length / 2)).filter bad = [b] := by
          rw [hL, hx, hxs]
        have hokL : ok (group.take (group.length / 2)) = false := by
          rw [hok]
          have : (group.take (group.length / 2)).any bad = true := by
            rw [List.any_eq_true]
            refine ⟨b, ?_, hmemb⟩
            have hb : b ∈ (group.take (group.length / 2)).filter bad := by
              rw [hLb]
              exact List.mem_singleton.mpr rfl
            exact (List.mem_filter.mp hb).1
          rw [this]
          rfl
        have hstep : bisectMinFail ok (n + 1) group
            = bisectMinFail ok n (group.take (group.length / 2)) := by
          conv_lhs => unfold bisectMinFail
          rw [if_neg hsmall, if_neg (by simp [hokL])]
        rw [hstep]
        refine ih _ ?_ hLb
        rw [List.length_take]
        omega

/-- Once the remaining suffix is clean, the chunk scan only advances and
grows, accumulating no further bad items. -/
theorem findLoop_clean (bad : PyVal → Bool) (ok : List PyVal → Bool)
    (hok : ∀ s, ok s = !(s.any bad)) (items : List PyVal)
    (initial maxc bfuel : Nat) :
    ∀ (fuel idx csize okc : Nat) (bacc : List PyVal) (gacc : List (List PyVal)),
      items.length - idx < fuel → 1 ≤ csize →
      (items.drop idx).filter bad = [] →
      ∃ r, findLoop ok items initial maxc bfuel fuel idx csize okc bacc gacc = .done r
        ∧ r.bad_items = bacc := by
  intro fuel
  induction fuel with
  | zero =>
    intro idx csize okc bacc gacc hfu hcs hclean
    omega
  | succ n ih =>
    intro idx csize okc bacc gacc hfu hcs hclean
    by_cases hidx : idx < items.length
    · have hchunkf : ((items.drop idx).take csize).filter bad = [] :=
        filter_take_nil bad _ csize hclean
      have hokc : ok ((items.drop idx).take csize) = true := by
        rw [hok, (filter_nil_iff_any_false bad _).mp hchunkf]
        rfl
      have hchunklen : 1 ≤ ((items.drop idx).take csize).length := by
        rw [List.length_take, List.length_drop]
        omega
      have hstep : findLoop ok items initial maxc bfuel (n + 1) idx csize okc bacc gacc
          = findLoop ok items initial maxc bfuel n
            (idx + ((items.drop idx).take csize).length)
            (if csize < maxc then min maxc (csize * 2) else csize)
            (okc + ((items.drop idx).take csize).length) bacc gacc := by
        conv_lhs => unfold findLoop
        rw [if_pos hidx, if_pos hokc]
      rw [hstep]
      refine ih _ _ _ _ _ ?_ ?_ ?_
      · rw [List.length_take, List.length_drop]
        rw [List.length_take, List.length_drop] at hchunklen
        omega
      · by_cases h2 : csize < maxc
        · rw [if_pos h2]
          exact le_min (by omega) (by omega)
        · rw [if_neg h2]
          exact hcs
      · rw [drop_idx_add_chunk]
        exact filter_drop_nil bad _ csize hclean
    · refine ⟨⟨okc, items.length, bacc, gacc⟩, ?_, rfl⟩
      unfold findLoop
      rw [if_neg hidx]

/-- A dict item always yields a `ProductRef` (no `AttributeError`). -/
theorem from_item_ok_of_dict (it : PyVal) (h : isPyDict it = true) :
    ∃ r, ProductRef.from_item it = .ok r := by
  cases it <;> simp [isPyDict] at h
  exact ⟨_, rfl⟩

/-- With exactly one bad occurrence `b` (a dict item) ahead of the scan
position, the loop terminates having appended exactly `b` to the
accumulated bad items. -/
theorem findLoop_one_bad (bad : PyVal → Bool) (ok : List PyVal → Bool)
    (hok : ∀ s, ok s = !(s.any bad)) (items : List PyVal) (b : PyVal)
    (hbdict : isPyDict b = true)
    (initial maxc bfuel : Nat) (hbf : items.length ≤ bfuel) :
    ∀ (fuel idx csize okc : Nat) (bacc : List PyVal) (gacc : List (List PyVal)),
      items.length - idx < fuel → 1 ≤ csize →
      (items.drop idx).filter bad = [b] →
      ∃ r, findLoop ok items initial maxc bfuel fuel idx csize okc bacc gacc = .done r
        ∧ r.bad_items = bacc ++ [b] := by
  intro fuel
  induction fuel with
  | zero =>
    intro idx csize okc bacc gacc hfu hcs hone
    omega
  | succ n ih =>
    intro idx csize okc bacc gacc hfu hcs hone
    by_cases hidx : idx < items.length
    · have hsplit : ((items.drop idx).take csize).filter bad
          ++ ((items.drop idx).drop csize).filter bad = [b] := by
        rw [← List.filter_append, List.take_append_drop, hone]
      have hchunklen : 1 ≤ ((items.drop idx).take csize).length := by
        rw [List.length_take, List.length_drop]
        omega
      have hmemb : bad b = true := by
        have hb : b ∈ ((items.drop idx)).filter bad := by
          rw [hone]
          exact List.mem_singleton.mpr rfl
        exact (List.mem_filter.mp hb).2
      rcases hC : ((items.drop idx).take csize).filter bad with _ | ⟨x, xs⟩
      · -- chunk clean: advance, bad item still ahead
        rw [hC, List.nil_append] at hsplit
        have hokc : ok ((items.drop idx).take csize) = true := by
          rw [hok, (filter_nil_iff_any_false bad _).mp hC]
          rfl
        have hstep : findLoop ok items initial maxc bfuel (n + 1) idx csize okc bacc gacc
            = findLoop ok items initial maxc bfuel n
              (idx + ((items.drop idx).take csize).length)
              (if csize < maxc then min maxc (csize * 2) else csize)
              (okc + ((items.drop idx).take csize).length) bacc gacc := by
          conv_lhs => unfold findLoop
          rw [if_pos hidx, if_pos hokc]
        rw [hstep]
        refine ih _ _ _ _ _ ?_ ?_ ?_
        · rw [List.length_take, List.length_drop]
          rw [List.length_take, List.length_drop] at hchunklen
          omega
        · by_cases h2 : csize < maxc
          · rw [if_pos h2]
            exact le_min (by omega) (by omega)
          · rw [if_neg h2]
            exact hcs
        · rw [drop_idx_add_chunk]
          exact hsplit
      · -- chunk holds the bad item
        rw [hC, List.cons_append] at hsplit
        have hx : x = b := (List.cons.injEq _ _ _ _).mp hsplit |>.1
        have hrest : xs ++ ((items.drop idx).drop csize).filter bad = [] :=
          (List.cons.injEq _ _ _ _).mp hsplit |>.2
        have hxs : xs = [] := (List.append_eq_nil.mp hrest).1
        have hRnil : ((items.drop idx).drop csize).filter bad = [] :=
          (List.append_eq_nil.mp hrest).2
        have hCb : ((items.drop idx).take csize).filter bad = [b] := by
          rw [hC, hx, hxs]
        have hokc : ok ((items.drop idx).take csize) = false := by
          rw [hok]
          have : ((items.drop idx).take csize).any bad = true := by
            rw [List.any_eq_true]
            refine ⟨b, ?_, hmemb⟩
            have hb : b ∈ ((items.drop idx).take csize).filter bad := by
              rw [hCb]
              exact List.mem_singleton.mpr rfl
            exact (List.mem_filter.mp hb).1
          rw [this]
          rfl
        have hokb : ok [b] = false := by
          rw [hok]
          simp [hmemb]
        by_cases hbig : 1 < ((items.drop idx).take csize).length
        · -- multi-item failing chunk: bisect then confirm
          have hbisect : bisectMinFail ok bfuel ((items.drop idx).take csize)
              = some [b] := by
            refine bisectMinFail_single_bad bad ok hok b bfuel _ ?_ hCb
            calc ((items.drop idx).take csize).length
                ≤ (items.drop idx).length := by
                  rw [List.length_take, List.length_drop]
                  omega
              _ ≤ items.length := by rw [List.length_drop]; omega
              _ ≤ bfuel := hbf
          have hconf : confirmSingles ok [b] = .ok [b] := by
            obtain ⟨r0, hr0⟩ := from_item_ok_of_dict b hbdict
            simp [confirmSingles, hr0, hokb]
          have hstep : findLoop ok items initial maxc bfuel (n + 1) idx csize okc bacc gacc
              = findLoop ok items initial maxc bfuel n
                (idx + ((items.drop idx).take csize).length) (max 1 initial) okc
                (bacc ++ [b]) (gacc ++ [[b]]) := by
            conv_lhs => unfold findLoop
            rw [if_pos hidx, if_neg (by simp [hokc]), if_pos hbig, hbisect]
            simp [hconf]
          rw [hstep]
          obtain ⟨r, hr, hbad⟩ := findLoop_clean bad ok hok items initial maxc bfuel n
            (idx + ((items.drop idx).take csize).length) (max 1 initial) okc
            (bacc ++ [b]) (gacc ++ [[b]])
            (by
              rw [List.length_take, List.length_drop]
              rw [List.length_take, List.length_drop] at hchunklen
              omega)
            (le_max_left 1 initial)
            (by rw [drop_idx_add_chunk]; exact hRnil)
          exact ⟨r, hr, hbad⟩
        · -- the failing chunk is the single bad item
          have hchunk1 : ((items.drop idx).take csize).length = 1 := by omega
          have hchunkb : (items.drop idx).take csize = [b] := by
            rcases hck : (items.drop idx).take csize with _ | ⟨c, cs⟩
            · rw [hck] at hchunk1
              simp at hchunk1
            · rw [hck] at hchunk1 hCb
              have hcs0 : cs = [] := by
                rw [List.length_cons] at hchunk1
                exact List.length_eq_zero.mp (by omega)
              subst hcs0
              by_cases hc : bad c
              · simp [List.filter, hc] at hCb
                rw [hCb]
              · simp [List.filter, hc] at hCb
          have hstep : findLoop ok items initial maxc bfuel (n + 1) idx csize okc bacc gacc
              = findLoop ok items initial maxc bfuel n
                (idx + 1) (max 1 initial) okc (bacc ++ [b]) gacc := by
            conv_lhs => unfold findLoop
            rw [if_pos hidx, if_neg (by simp [hokc]), if_neg hbig, hchunkb]
          rw [hstep]
          have hdrop1 : (items.drop (idx + 1)).filter bad = [] := by
            have h1 : idx + 1 = idx + ((items.drop idx).take csize).length := by
              rw [hchunkb]
              rfl
            rw [h1, drop_idx_add_chunk]
            exact hRnil
          exact findLoop_clean bad ok hok items initial maxc bfuel n
            (idx + 1) (max 1 initial) okc (bacc ++ [b]) gacc
            (by omega) (le_max_left 1 initial) hdrop1
    · exfalso
      have : items.drop idx = [] := List.drop_eq_nil_of_le (by omega)
      rw [this] at hone
      simp at hone

/-- Upload success predicate induced by a bad-item predicate: a payload
fails exactly when its `products` list contains a bad item (and anything
without a products list trivially succeeds — the search never builds such
a payload). -/
def okPayloadOf (bad : PyVal → Bool) : PyVal → Bool
  | .pyDict d =>
    match dictLookup d "products" with
    | some (.pyList s) => !(s.any bad)
    | _ => true
  | _ => true

/-- C3: for a catalog of N item dicts in which exactly one item (at index
`k`) makes every payload containing it fail while every payload without
it succeeds, `find_products_breaking_upload` terminates (given fuel beyond
the list length) and reports exactly one confirmed bad item — item `k`.
The items must be dicts: on other values the source's confirmation loop
raises `AttributeError` in `ProductRef.from_item` instead of reporting. -/
theorem find_products_single_bad_item (bad : PyVal → Bool) (pd : PyDict)
    (items : List PyVal) (k : Nat) (hk : k < items.length)
    (hpd : dictLookup pd "products" = some (.pyList items))
    (hdict : ∀ it ∈ items, isPyDict it = true)
    (hfilter : items.filter bad = [items.get ⟨k, hk⟩])
    (lfuel bfuel initial maxc : Nat)
    (hl : items.length < lfuel) (hb : items.length ≤ bfuel) :
    FindOutcome.badItemsOf (find_products_breaking_upload (okPayloadOf bad) pd
        lfuel bfuel initial maxc true)
      = some [items.get ⟨k, hk⟩] := by
  have hok : ∀ s : List PyVal,
      okPayloadOf bad (.pyDict (dictSet (dictSet pd "products" (.pyList []))
        "products" (.pyList s))) = !(s.any bad) := by
    intro s
    simp [okPayloadOf, dictLookup_dictSet]
  obtain ⟨r, hr, hbad⟩ := findLoop_one_bad bad
    (fun s => okPayloadOf bad (.pyDict (dictSet (dictSet pd "products" (.pyList []))
      "products" (.pyList s))))
    hok items (items.get ⟨k, hk⟩)
    (hdict _ (List.get_mem items k hk))
    initial maxc bfuel hb
    lfuel 0 (max 1 initial) 0 [] []
    (by omega) (le_max_left 1 initial)
    (by rw [List.drop_zero]; exact hfilter)
  simp only [find_products_breaking_upload, hpd]
  rw [hr]
  simp [FindOutcome.badItemsOf, hbad]

/-- The unique bad item of the C3 witness scenario: the product dict with
pluNumber 20. -/
def bad20 : PyVal → Bool
  | .pyDict [("pluNumber", .pyInt 20)] => true
  | _ => false

/-- Witness for C3: three product dicts of which exactly the middle one
poisons any payload containing it; the search reports exactly that item. -/
theorem find_products_single_bad_item_witness :
    FindOutcome.badItemsOf (find_products_breaking_upload (okPayloadOf bad20)
        [("name", .pyStr "t"), ("products", .pyList
          [.pyDict [("pluNumber", .pyInt 10)], .pyDict [("pluNumber", .pyInt 20)],
           .pyDict [("pluNumber", .pyInt 30)]])]
        4 3 50 500 true)
      = some [.pyDict [("pluNumber", .pyInt 20)]] :=
  find_products_single_bad_item bad20
    [("name", .pyStr "t"), ("products", .pyList
      [.pyDict [("pluNumber", .pyInt 10)], .pyDict [("pluNumber", .pyInt 20)],
       .pyDict [("pluNumber", .pyInt 30)]])]
    [.pyDict [("pluNumber", .pyInt 10)], .pyDict [("pluNumber", .pyInt 20)],
     .pyDict [("pluNumber", .pyInt 30)]] 1 (by decide) rfl (by decide) rfl 4 3 50 500
    (by decide) (by decide)

end WebScales
